import Mathlib

/-!
Shallow embedding of `src/app/ui-react/syndesis/src/modules/data/shared/VirtualizationUtils.ts`.

JavaScript strings are immutable values and are modelled by `String`.
JavaScript arrays are mutable reference values; the arrays that matter for the
claims (the `nodePath`/`sourcePath` arrays threaded through `generateViewInfos`)
are modelled by an explicit store (`TraversalState.arrays`) indexed by `Nat`
references, so that the source's in-place `push` mutations and aliasing are
represented faithfully.  `SchemaNode` objects are never written to by the
source, and are modelled as immutable values; the traversal nevertheless
threads the node through and returns it, so that the frame property
"the tree is unchanged" is a provable statement about the embedding.
JavaScript `undefined` arising from out-of-range indexing or from
`split` producing too few fields is modelled with `Option`.
-/

namespace VirtualizationUtils

/-- Source: `const SCHEMA_MODEL_SUFFIX = 'schemamodel'`. -/
def SCHEMA_MODEL_SUFFIX : String := "schemamodel"

/-- Source: `const PREVIEW_VDB_NAME = 'PreviewVdb'`. -/
def PREVIEW_VDB_NAME : String := "PreviewVdb"

/-- Source: `export function getPreviewVdbName(): string`. -/
def getPreviewVdbName : String := PREVIEW_VDB_NAME

/-- Model of `SchemaNode` from `@syndesis/models`: the fields read by this module
(`name`, `connectionName`, `path`, `queryable`, `children`). -/
inductive SchemaNode : Type where
  | mk (name : String) (connectionName : String) (path : String)
      (queryable : Bool) (children : List SchemaNode) : SchemaNode

def SchemaNode.name : SchemaNode → String
  | SchemaNode.mk n _ _ _ _ => n

def SchemaNode.connectionName : SchemaNode → String
  | SchemaNode.mk _ c _ _ _ => c

def SchemaNode.path : SchemaNode → String
  | SchemaNode.mk _ _ p _ _ => p

def SchemaNode.queryable : SchemaNode → Bool
  | SchemaNode.mk _ _ _ q _ => q

def SchemaNode.children : SchemaNode → List SchemaNode
  | SchemaNode.mk _ _ _ _ ch => ch

/-- Model of `ViewInfo` from `@syndesis/models`.  The `nodePath` field of the source
holds a JavaScript array reference; here it is a `Nat` index into
`TraversalState.arrays`. -/
structure ViewInfo : Type where
  connectionName : String
  isUpdate : Bool
  nodePathRef : Nat
  selected : Bool
  viewName : String
  viewSourceNode : SchemaNode

/-- The mutable state of one `generateViewInfos` traversal: the store of
string arrays allocated so far, and the accumulated `viewInfos` out-array. -/
structure TraversalState : Type where
  arrays : List (List String)
  viewInfos : List ViewInfo

/-- JavaScript `Array.prototype.findIndex`: index of the first element
satisfying the predicate, `-1` when there is none. -/
def jsFindIndex (arr : List String) (p : String → Bool) : Int :=
  match arr with
  | [] => -1
  | a :: rest =>
    if p a then 0
    else
      let r := jsFindIndex rest p
      if r = -1 then -1 else r + 1

/-- Dereference the array store. -/
def TraversalState.deref (s : TraversalState) (ref : Nat) : List String :=
  s.arrays.getD ref []

mutual

/-- Source: `export function generateViewInfos(viewInfos, schemaNode, nodePath,
selectedViewNames, existingViewNames): void`.

The out-parameter `viewInfos` and the array store live in `s`; `nodePathRefIdx`
is the reference to the caller's `nodePath` array.  The `if (schemaNode)` null
guard of the source is not representable (values are total) and no claim
depends on it.  The returned `SchemaNode` is the tree as it stands after the
call (the source performs no writes to any node field, which the embedding
makes provable rather than assuming). -/
def generateViewInfos (selectedViewNames existingViewNames : List String)
    (s : TraversalState) (schemaNode : SchemaNode) (nodePathRefIdx : Nat) :
    TraversalState × SchemaNode :=
  match schemaNode with
  | SchemaNode.mk nm connNm pth qry children =>
    -- const sourcePath: string[] = []; for (const seg of nodePath) sourcePath.push(seg);
    -- allocates a fresh array, with the same contents, at index s.arrays.length
    let nodePath := s.deref nodePathRefIdx
    let sourcePath := nodePath
    let sourcePathRefIdx := s.arrays.length
    let s1 : TraversalState := { s with arrays := s.arrays ++ [sourcePath] }
    -- if (schemaNode.queryable === true) { ... viewInfos.push(view); }
    let s2 : TraversalState :=
      if qry = true then
        let vwName := connNm ++ "_" ++ nm
        let selectedState :=
          if jsFindIndex selectedViewNames (fun viewName => viewName == vwName) = -1
          then false else true
        let hasExistingView :=
          if jsFindIndex existingViewNames (fun viewName => viewName == vwName) = -1
          then false else true
        let view : ViewInfo :=
          { connectionName := connNm
            isUpdate := hasExistingView
            nodePathRef := sourcePathRefIdx
            selected := selectedState
            viewName := vwName
            viewSourceNode := SchemaNode.mk nm connNm pth qry children }
        { s1 with viewInfos := s1.viewInfos ++ [view] }
      else s1
    -- sourcePath.push(schemaNode.name);  (in-place mutation of the shared array)
    let s3 : TraversalState :=
      { s2 with arrays := s2.arrays.set sourcePathRefIdx (sourcePath ++ [nm]) }
    -- if (schemaNode.children && schemaNode.children.length > 0) { for ... }
    -- (iterating over an empty children list is already a no-op)
    let res := generateViewInfosList selectedViewNames existingViewNames s3
      children sourcePathRefIdx
    (res.1, SchemaNode.mk nm connNm pth qry res.2)

/-- The `for (const childNode of schemaNode.children)` loop of
`generateViewInfos`. -/
def generateViewInfosList (selectedViewNames existingViewNames : List String)
    (s : TraversalState) (nodes : List SchemaNode) (nodePathRefIdx : Nat) :
    TraversalState × List SchemaNode :=
  match nodes with
  | [] => (s, [])
  | n :: rest =>
    let r1 := generateViewInfos selectedViewNames existingViewNames s n nodePathRefIdx
    let r2 := generateViewInfosList selectedViewNames existingViewNames r1.1 rest
      nodePathRefIdx
    (r2.1, r1.2 :: r2.2)

end

/-- The contents, after the whole traversal has completed, of the array a
`ViewInfo.nodePath` field references. -/
def finalNodePath (s : TraversalState) (vi : ViewInfo) : List String :=
  s.deref vi.nodePathRef

mutual

/-- The pre-order (node before its children, children left to right) listing
of the nodes of a schema tree. -/
def preorder : SchemaNode → List SchemaNode
  | SchemaNode.mk nm connNm pth qry children =>
    SchemaNode.mk nm connNm pth qry children :: preorderList children

/-- Pre-order listing of a forest. -/
def preorderList : List SchemaNode → List SchemaNode
  | [] => []
  | n :: rest => preorder n ++ preorderList rest

end

/-- Model of `ProjectedColumn` from `@syndesis/models`. -/
structure ProjectedColumn : Type where
  name : String
  selected : Bool
  type : String
  deriving DecidableEq

/-- Model of `ViewDefinition` from `@syndesis/models` (the fields this module
reads or writes).  The element type of `compositions` is never constructed
by this module and is modelled as `Unit`. -/
structure ViewDefinition : Type where
  compositions : List Unit
  isComplete : Bool
  keng__description : String
  projectedColumns : List ProjectedColumn
  sourcePaths : List String
  viewName : String
  deriving DecidableEq

/-- Model of `ViewEditorState` from `@syndesis/models`. -/
structure ViewEditorState : Type where
  id : String
  viewDefinition : ViewDefinition
  deriving DecidableEq

/-- Source: `export function generateViewEditorStates(serviceVdbName, viewInfos):
ViewEditorState[]`. -/
def generateViewEditorStates (serviceVdbName : String)
    (viewInfos : List ViewInfo) : List ViewEditorState :=
  viewInfos.foldl
    (fun editorStates viewInfo =>
      let path := "connection=" ++ viewInfo.connectionName ++ "/"
        ++ viewInfo.viewSourceNode.path
      let srcPaths : List String := [path]
      let projCol : ProjectedColumn := { name := "ALL", selected := true, type := "ALL" }
      let projCols : List ProjectedColumn := [projCol]
      let viewDefn : ViewDefinition :=
        { compositions := []
          isComplete := true
          keng__description := viewInfo.viewName ++ " description"
          projectedColumns := projCols
          sourcePaths := srcPaths
          viewName := viewInfo.viewName }
      let editorState : ViewEditorState :=
        { id := serviceVdbName ++ "." ++ viewInfo.viewName
          viewDefinition := viewDefn }
      editorStates ++ [editorState])
    []

/-- Model of `VirtualizationSourceStatus` from `@syndesis/models` (fields read here). -/
structure VirtualizationSourceStatus : Type where
  sourceName : String
  vdbState : String
  schemaState : String
  deriving DecidableEq

/-- The `options` object written by `generateDvConnections`. -/
structure ConnectionOptions : Type where
  dvStatus : String
  dvSelected : String
  deriving DecidableEq

/-- Model of `Connection` from `@syndesis/models` (fields this module touches:
`name` read, `options` written). -/
structure Connection : Type where
  name : String
  options : Option ConnectionOptions
  deriving DecidableEq

/-- Enum member `DvConnectionStatus.ACTIVE` — its string value. -/
def DvConnectionStatus.ACTIVE : String := "ACTIVE"

/-- Enum member `DvConnectionStatus.INACTIVE`. -/
def DvConnectionStatus.INACTIVE : String := "INACTIVE"

/-- Enum member `DvConnectionSelection.SELECTED`. -/
def DvConnectionSelection.SELECTED : String := "SELECTED"

/-- Enum member `DvConnectionSelection.NOTSELECTED`. -/
def DvConnectionSelection.NOTSELECTED : String := "NOTSELECTED"

/-- The `let connStatus` computation of the `generateDvConnections` loop:
`INACTIVE` unless `find?` locates a status record for this connection name
whose `vdbState` and `schemaState` are both `'ACTIVE'`. -/
def dvConnStatus (virtualizationsSourceStatuses : List VirtualizationSourceStatus)
    (connName : String) : String :=
  let virtSrcStatus := virtualizationsSourceStatuses.find?
    (fun virtStatus => virtStatus.sourceName == connName)
  match virtSrcStatus with
  | some st =>
    if st.vdbState == "ACTIVE" && st.schemaState == "ACTIVE"
    then DvConnectionStatus.ACTIVE
    else DvConnectionStatus.INACTIVE
  | none => DvConnectionStatus.INACTIVE

/-- The `let selectionState` computation of the `generateDvConnections`
loop. -/
def dvSelectionState (connName selectedConn : String) : String :=
  if connName == selectedConn
  then DvConnectionSelection.SELECTED
  else DvConnectionSelection.NOTSELECTED

/-- The body of the `for (const conn of conns)` loop of
`generateDvConnections`: `conn.options = {dvStatus: ..., dvSelected: ...}`
(in value semantics, the connection with its `options` field replaced). -/
def dvAnnotateOne (virtualizationsSourceStatuses : List VirtualizationSourceStatus)
    (selectedConn : String) (conn : Connection) : Connection :=
  { conn with
    options := some (ConnectionOptions.mk
      (dvConnStatus virtualizationsSourceStatuses conn.name)
      (dvSelectionState conn.name selectedConn)) }

/-- Source: `export function generateDvConnections(conns,
virtualizationsSourceStatuses, selectedConn): Connection[]`.  The source
mutates `conn.options` in place and pushes the same object onto `dvConns`;
the loop body is `dvAnnotateOne`. -/
def generateDvConnections (conns : List Connection)
    (virtualizationsSourceStatuses : List VirtualizationSourceStatus)
    (selectedConn : String) : List Connection :=
  conns.foldl
    (fun dvConns conn =>
      dvConns ++ [dvAnnotateOne virtualizationsSourceStatuses selectedConn conn])
    []

/-- Model of `RestDataService` from `@syndesis/models` (fields read here).
`publishLogUrl` is optional in the source model. -/
structure RestDataService : Type where
  publishedState : String
  publishLogUrl : Option String
  deriving DecidableEq

/-- Model of `VirtualizationPublishingDetails` from `@syndesis/models`.
`logUrl` is optional and absent unless assigned. -/
structure VirtualizationPublishingDetails : Type where
  state : String
  stepNumber : Nat
  stepText : String
  stepTotal : Nat
  logUrl : Option String
  deriving DecidableEq

/-- Source: `export function getPublishingDetails(virtualization):
VirtualizationPublishingDetails`.  The `if (virtualization.publishLogUrl)`
truthiness test holds exactly when the field is present and non-empty. -/
def getPublishingDetails (virtualization : RestDataService) :
    VirtualizationPublishingDetails :=
  let publishStepDetails : VirtualizationPublishingDetails :=
    { state := virtualization.publishedState
      stepNumber := 0
      stepText := ""
      stepTotal := 4
      logUrl := none }
  let stepped : VirtualizationPublishingDetails :=
    match virtualization.publishedState with
    | "CONFIGURING" => { publishStepDetails with stepNumber := 1, stepText := "Configuring" }
    | "BUILDING" => { publishStepDetails with stepNumber := 2, stepText := "Building" }
    | "DEPLOYING" => { publishStepDetails with stepNumber := 3, stepText := "Deploying" }
    | "RUNNING" => { publishStepDetails with stepNumber := 4, stepText := "Published" }
    | _ => publishStepDetails
  match virtualization.publishLogUrl with
  | some url => if url ≠ "" then { stepped with logUrl := some url } else stepped
  | none => stepped

/-- JavaScript `String.prototype.split` with a single-character separator,
over the string's character list: `''.split(sep)` is `['']`, separators at
the ends produce empty fields, adjacent separators produce empty fields. -/
def splitChar (sep : Char) : List Char → List (List Char)
  | [] => [[]]
  | c :: rest =>
    if c = sep then [] :: splitChar sep rest
    else
      match splitChar sep rest with
      | h :: t => (c :: h) :: t
      | [] => [[c]]

/-- JavaScript string concatenation coerces `undefined` to `"undefined"`. -/
def jsStringOf : Option String → String
  | some s => s
  | none => "undefined"

/-- JavaScript `String.prototype.toLowerCase`: lower-case each character. -/
def jsToLowerCase (s : String) : String :=
  String.mk (s.data.map Char.toLower)

/-- Source: `function getConnectionName(sourcePath): string` —
`sourcePath.split('/')[0].split('=')[1]`.  The result is `none` when the
first segment has no `=` (JavaScript `undefined`). -/
def getConnectionName (sourcePath : String) : Option String :=
  ((splitChar '=' ((splitChar '/' sourcePath.data).getD 0 [])).get? 1).map
    (fun cs => String.mk cs)

/-- Source: `function getNodeName(sourcePath): string` —
`segments[segments.length - 1].split('=')[1]` for
`segments = sourcePath.split('/')`. -/
def getNodeName (sourcePath : String) : Option String :=
  let segments := splitChar '/' sourcePath.data
  ((splitChar '=' (segments.getD (segments.length - 1) [])).get? 1).map
    (fun cs => String.mk cs)

/-- Source: `function getPreviewTableName(sourcePath): string`.  When
`getConnectionName` is `undefined`, `.toLowerCase()` throws a `TypeError`,
modelled as `none`; an `undefined` node name is coerced to `"undefined"`
by string concatenation. -/
def getPreviewTableName (sourcePath : String) : Option String :=
  (getConnectionName sourcePath).map
    (fun connName =>
      jsToLowerCase connName ++ SCHEMA_MODEL_SUFFIX ++ "." ++ jsStringOf (getNodeName sourcePath))

/-- Source: `export function getPreviewSql(viewDefinition): string`.
`viewDefinition.sourcePaths[0]` is `undefined` on an empty array, and
`if (sourcePath)` is JavaScript truthiness: taken exactly when the first
path exists and is non-empty. -/
def getPreviewSql (viewDefinition : ViewDefinition) : Option String :=
  match viewDefinition.sourcePaths.get? 0 with
  | some sourcePath =>
    if sourcePath ≠ "" then
      (getPreviewTableName sourcePath).map (fun t => "SELECT * FROM " ++ t ++ ";")
    else some ""
  | none => some ""

/-- Everything after the first occurrence of `sep`, `none` when `sep` does
not occur (used to state claim C5 and its amendment). -/
def afterFirst (sep : Char) : List Char → Option (List Char)
  | [] => none
  | c :: rest => if c = sep then some rest else afterFirst sep rest

/-- The invariant claim C7 states of every `ViewInfo` emitted by a traversal
with name sets `sel` and `ex`. -/
def emittedViewInfoInv (sel ex : List String) (vi : ViewInfo) : Prop :=
  vi.viewName = vi.viewSourceNode.connectionName ++ "_" ++ vi.viewSourceNode.name
    ∧ (vi.selected = true ↔ vi.viewName ∈ sel)
    ∧ (vi.isUpdate = true ↔ vi.viewName ∈ ex)

/-! Helper lemmas. -/

theorem foldl_append_singleton {α β : Type} (f : α → β) (l : List α) (init : List β) :
    l.foldl (fun acc x => acc ++ [f x]) init = init ++ l.map f := by
  induction l generalizing init with
  | nil => simp
  | cons a t ih => simp [List.foldl_cons, ih]

theorem jsFindIndex_ge (arr : List String) (p : String → Bool) :
    jsFindIndex arr p = -1 ∨ 0 ≤ jsFindIndex arr p := by
  induction arr with
  | nil => exact Or.inl rfl
  | cons a rest ih =>
    by_cases hp : p a
    · right
      simp [jsFindIndex, hp]
    · rcases ih with h | h
      · left
        simp [jsFindIndex, hp, h]
      · by_cases hm : jsFindIndex rest p = -1
        · left
          simp [jsFindIndex, hp, hm]
        · right
          simp only [jsFindIndex, hp, if_false, hm, if_neg, Bool.false_eq_true]
          omega

theorem jsFindIndex_eq_neg_one_iff (arr : List String) (x : String) :
    jsFindIndex arr (fun v => v == x) = -1 ↔ x ∉ arr := by
  induction arr with
  | nil => simp [jsFindIndex]
  | cons a rest ih =>
    by_cases hp : a = x
    · subst hp
      simp [jsFindIndex]
    · have hpa : (a == x) = false := by simp [hp]
      by_cases hm : jsFindIndex rest (fun v => v == x) = -1
      · simp only [jsFindIndex, hpa, Bool.false_eq_true, if_false, hm, if_pos]
        simp only [List.mem_cons, not_or]
        constructor
        · intro _
          exact ⟨fun hx => hp hx.symm, ih.mp hm⟩
        · intro _
          trivial
      · have hge : 0 ≤ jsFindIndex rest (fun v => v == x) :=
          (jsFindIndex_ge rest _).resolve_left hm
        simp only [jsFindIndex, hpa, Bool.false_eq_true, if_false, hm, if_neg]
        constructor
        · intro h
          omega
        · intro h
          exfalso
          have : x ∈ rest := by
            by_contra hx
            exact hm (ih.mpr hx)
          simp [List.mem_cons, this] at h

theorem splitChar_ne_nil (sep : Char) (s : List Char) : splitChar sep s ≠ [] := by
  cases s with
  | nil => simp [splitChar]
  | cons c rest =>
    by_cases hc : c = sep
    · simp [splitChar, hc]
    · cases hsp : splitChar sep rest with
      | nil => simp [splitChar, hc, hsp]
      | cons h t => simp [splitChar, hc, hsp]

theorem splitChar_get_zero (sep : Char) (s : List Char) :
    (splitChar sep s).get? 0 = some (s.takeWhile (fun c => !(c == sep))) := by
  induction s with
  | nil => simp [splitChar]
  | cons c rest ih =>
    by_cases hc : c = sep
    · subst hc
      simp [splitChar, List.takeWhile]
    · have hb : (c == sep) = false := by simp [hc]
      cases hsp : splitChar sep rest with
      | nil => exact absurd hsp (splitChar_ne_nil sep rest)
      | cons h t =>
        rw [hsp] at ih
        simp only [List.get?] at ih
        simp [splitChar, hc, hsp, List.takeWhile, hb, Option.some_inj.mp ih]

theorem splitChar_get_one (sep : Char) (s : List Char) :
    (splitChar sep s).get? 1
      = (afterFirst sep s).map (fun r => r.takeWhile (fun c => !(c == sep))) := by
  induction s with
  | nil => simp [splitChar, afterFirst]
  | cons c rest ih =>
    by_cases hc : c = sep
    · subst hc
      simp only [splitChar, if_pos rfl, afterFirst, List.get?]
      rw [splitChar_get_zero]
      simp
    · cases hsp : splitChar sep rest with
      | nil => exact absurd hsp (splitChar_ne_nil sep rest)
      | cons h t =>
        rw [hsp] at ih
        simp only [splitChar, hc, if_false, hsp, afterFirst, List.get?] at ih ⊢
        simpa [hc] using ih

mutual

theorem generateViewInfos_tree_eq (sel ex : List String) (s : TraversalState)
    (node : SchemaNode) (ref : Nat) :
    (generateViewInfos sel ex s node ref).2 = node := by
  cases node with
  | mk nm connNm pth qry children =>
    simp only [generateViewInfos]
    rw [generateViewInfosList_tree_eq]

theorem generateViewInfosList_tree_eq (sel ex : List String) (s : TraversalState)
    (nodes : List SchemaNode) (ref : Nat) :
    (generateViewInfosList sel ex s nodes ref).2 = nodes := by
  cases nodes with
  | nil => rfl
  | cons n rest =>
    simp only [generateViewInfosList]
    rw [generateViewInfos_tree_eq, generateViewInfosList_tree_eq]

end

mutual

theorem generateViewInfos_map_vsn (sel ex : List String) (s : TraversalState)
    (node : SchemaNode) (ref : Nat) :
    ((generateViewInfos sel ex s node ref).1.viewInfos).map ViewInfo.viewSourceNode
      = s.viewInfos.map ViewInfo.viewSourceNode
        ++ ((preorder node).filter (fun m => m.queryable)) := by
  cases node with
  | mk nm connNm pth qry children =>
    simp only [generateViewInfos, preorder]
    rw [generateViewInfosList_map_vsn]
    cases qry with
    | false => simp [List.filter_cons, SchemaNode.queryable]
    | true => simp [List.filter_cons, SchemaNode.queryable, ViewInfo.viewSourceNode]

theorem generateViewInfosList_map_vsn (sel ex : List String) (s : TraversalState)
    (nodes : List SchemaNode) (ref : Nat) :
    ((generateViewInfosList sel ex s nodes ref).1.viewInfos).map ViewInfo.viewSourceNode
      = s.viewInfos.map ViewInfo.viewSourceNode
        ++ ((preorderList nodes).filter (fun m => m.queryable)) := by
  cases nodes with
  | nil => simp [generateViewInfosList, preorderList]
  | cons n rest =>
    simp only [generateViewInfosList, preorderList]
    rw [generateViewInfosList_map_vsn, generateViewInfos_map_vsn]
    simp

end

theorem jsFindIndex_ite_mem (arr : List String) (x : String) :
    (if jsFindIndex arr (fun v => v == x) = -1 then false else true) = true ↔ x ∈ arr := by
  by_cases h : jsFindIndex arr (fun v => v == x) = -1
  · simp [h, (jsFindIndex_eq_neg_one_iff arr x).mp h]
  · have : x ∈ arr := by
      by_contra hx
      exact h ((jsFindIndex_eq_neg_one_iff arr x).mpr hx)
    simp [h, this]

mutual

theorem generateViewInfos_mem_inv (sel ex : List String) (s : TraversalState)
    (node : SchemaNode) (ref : Nat) (vi : ViewInfo)
    (hvi : vi ∈ (generateViewInfos sel ex s node ref).1.viewInfos) :
    vi ∈ s.viewInfos ∨ emittedViewInfoInv sel ex vi := by
  cases node with
  | mk nm connNm pth qry children =>
    cases qry with
    | false =>
      simp only [generateViewInfos, Bool.false_eq_true, if_false] at hvi
      rcases generateViewInfosList_mem_inv sel ex _ children _ vi hvi with h | h
      · exact Or.inl h
      · exact Or.inr h
    | true =>
      simp only [generateViewInfos, if_pos] at hvi
      rcases generateViewInfosList_mem_inv sel ex _ children _ vi hvi with h | h
      · rcases List.mem_append.mp h with h1 | h1
        · exact Or.inl h1
        · right
          rcases List.mem_singleton.mp h1 with rfl
          refine ⟨rfl, ?_, ?_⟩
          · exact jsFindIndex_ite_mem sel (connNm ++ "_" ++ nm)
          · exact jsFindIndex_ite_mem ex (connNm ++ "_" ++ nm)
      · exact Or.inr h

theorem generateViewInfosList_mem_inv (sel ex : List String) (s : TraversalState)
    (nodes : List SchemaNode) (ref : Nat) (vi : ViewInfo)
    (hvi : vi ∈ (generateViewInfosList sel ex s nodes ref).1.viewInfos) :
    vi ∈ s.viewInfos ∨ emittedViewInfoInv sel ex vi := by
  cases nodes with
  | nil => exact Or.inl hvi
  | cons n rest =>
    simp only [generateViewInfosList] at hvi
    rcases generateViewInfosList_mem_inv sel ex _ rest _ vi hvi with h | h
    · exact generateViewInfos_mem_inv sel ex _ n _ vi h
    · exact Or.inr h

end

/-! Claim theorems. -/

/-- C9: the schema tree passed to `generateViewInfos` is left unchanged by
the call: every node's `name`, `connectionName`, `path`, `queryable` and
`children` are the same after the call as before (the threaded-through tree
the embedding returns equals the input tree). -/
theorem claim9_tree_unchanged (sel ex : List String) (s : TraversalState)
    (node : SchemaNode) (ref : Nat) :
    (generateViewInfos sel ex s node ref).2 = node :=
  generateViewInfos_tree_eq sel ex s node ref

/-- C2: `generateViewInfos` appends to the accumulated `viewInfos` exactly
one `ViewInfo` per `queryable` node of the tree — none for non-queryable
nodes, whose descendants are still visited — in pre-order depth-first order
(so a queryable ancestor's entry precedes every queryable descendant's). -/
theorem claim2_preorder_queryable (sel ex : List String) (s : TraversalState)
    (node : SchemaNode) (ref : Nat) :
    ((generateViewInfos sel ex s node ref).1.viewInfos).map ViewInfo.viewSourceNode
      = s.viewInfos.map ViewInfo.viewSourceNode
        ++ ((preorder node).filter (fun m => m.queryable)) :=
  generateViewInfos_map_vsn sel ex s node ref

/-- C7: every `ViewInfo` a `generateViewInfos` call adds to the accumulator
has `viewName = connectionName ++ "_" ++ name` of its source node, is
`selected` iff that derived `viewName` is a member of the selected-names
list, and is an update iff it is a member of the existing-names list. -/
theorem claim7_viewname_membership (sel ex : List String) (s : TraversalState)
    (node : SchemaNode) (ref : Nat) (vi : ViewInfo)
    (hvi : vi ∈ (generateViewInfos sel ex s node ref).1.viewInfos) :
    vi ∈ s.viewInfos ∨ emittedViewInfoInv sel ex vi :=
  generateViewInfos_mem_inv sel ex s node ref vi hvi

/-- Witness for C7 at a concrete one-node queryable tree whose derived view
name `"conn_n1"` is in the selected list but not the existing list. -/
theorem claim7_viewname_membership_witness :
    (ViewInfo.mk "conn" false 1 true "conn_n1" (SchemaNode.mk "n1" "conn" "p" true [])
        ∈ (generateViewInfos ["conn_n1"] [] (TraversalState.mk [[]] [])
            (SchemaNode.mk "n1" "conn" "p" true []) 0).1.viewInfos)
      ∧ (ViewInfo.mk "conn" false 1 true "conn_n1" (SchemaNode.mk "n1" "conn" "p" true [])
            ∈ (TraversalState.mk [[]] []).viewInfos
          ∨ emittedViewInfoInv ["conn_n1"] []
              (ViewInfo.mk "conn" false 1 true "conn_n1" (SchemaNode.mk "n1" "conn" "p" true []))) := by
  have hvi : ViewInfo.mk "conn" false 1 true "conn_n1" (SchemaNode.mk "n1" "conn" "p" true [])
      ∈ (generateViewInfos ["conn_n1"] [] (TraversalState.mk [[]] [])
          (SchemaNode.mk "n1" "conn" "p" true []) 0).1.viewInfos := by
    show ViewInfo.mk "conn" false 1 true "conn_n1" (SchemaNode.mk "n1" "conn" "p" true [])
        ∈ [ViewInfo.mk "conn" false 1 true "conn_n1" (SchemaNode.mk "n1" "conn" "p" true [])]
    exact List.mem_singleton_self _
  exact ⟨hvi, claim7_viewname_membership ["conn_n1"] [] (TraversalState.mk [[]] [])
    (SchemaNode.mk "n1" "conn" "p" true []) 0 _ hvi⟩

/-- C1 (evaluation at the failing input): for the single queryable root
`"n1"` traversed with an empty ancestor path, the `nodePath` array of the
emitted `ViewInfo`, read after the call has returned, is `["n1"]` — it
contains the node's own name — and not `[]` as the claim requires for a
depth-0 node.  The emitted `nodePath` aliases the `sourcePath` array, which
the source subsequently mutates with `sourcePath.push(schemaNode.name)`. -/
theorem claim1_nodePath_aliasing_eval :
    (((generateViewInfos [] [] (TraversalState.mk [[]] [])
          (SchemaNode.mk "n1" "conn" "connection=conn/table=n1" true []) 0).1.viewInfos).map
        (finalNodePath (generateViewInfos [] [] (TraversalState.mk [[]] [])
          (SchemaNode.mk "n1" "conn" "connection=conn/table=n1" true []) 0).1))
      = [["n1"]]
    ∧ ([["n1"]] : List (List String)) ≠ [[]] := by
  exact ⟨rfl, by decide⟩

/-- C3: `generateViewEditorStates` returns one `ViewEditorState` per input
`ViewInfo`, in order, with `id = serviceVdbName ++ "." ++ viewName`, the
single source path `"connection=" ++ connectionName ++ "/" ++ the source
node's own path`, the placeholder description, the single `ALL` projected
column, no compositions, and `isComplete = true`. -/
theorem claim3_editor_states (serviceVdbName : String) (viewInfos : List ViewInfo) :
    generateViewEditorStates serviceVdbName viewInfos
      = viewInfos.map (fun viewInfo =>
          { id := serviceVdbName ++ "." ++ viewInfo.viewName
            viewDefinition :=
              { compositions := []
                isComplete := true
                keng__description := viewInfo.viewName ++ " description"
                projectedColumns := [{ name := "ALL", selected := true, type := "ALL" }]
                sourcePaths :=
                  ["connection=" ++ viewInfo.connectionName ++ "/" ++ viewInfo.viewSourceNode.path]
                viewName := viewInfo.viewName } }) := by
  show viewInfos.foldl
      (fun editorStates viewInfo => editorStates ++
        [({ id := serviceVdbName ++ "." ++ viewInfo.viewName
            viewDefinition :=
              { compositions := []
                isComplete := true
                keng__description := viewInfo.viewName ++ " description"
                projectedColumns := [{ name := "ALL", selected := true, type := "ALL" }]
                sourcePaths :=
                  ["connection=" ++ viewInfo.connectionName ++ "/" ++ viewInfo.viewSourceNode.path]
                viewName := viewInfo.viewName } } : ViewEditorState)]) [] = _
  rw [foldl_append_singleton]
  simp

/-- C5 (counterexample): on `"connection=a=b/table=t=x"` the code extracts
connection name `"a"` and node name `"t"` — the text between the first and
second `=` of the segment — not `"a=b"`/`"t=x"` (everything after the first
`=`) as the claim states. -/
theorem claim5_counterexample :
    getConnectionName "connection=a=b/table=t=x" ≠ some "a=b"
    ∧ getNodeName "connection=a=b/table=t=x" ≠ some "t=x"
    ∧ getConnectionName "connection=a=b/table=t=x" = some "a"
    ∧ getNodeName "connection=a=b/table=t=x" = some "t" := by
  refine ⟨by decide, by decide, by decide, by decide⟩

/-- C5 (amended): the connection name is the second `=`-separated field of
the first `/`-delimited segment — the text after the first `=` and before
the next `=`, undefined when the segment has no `=` — and the node name is
likewise the second `=`-separated field of the last segment.  (When the
value contains no further `=` this coincides with "everything after the
first `=`", which is where the original claim overreaches.) -/
theorem claim5_amended_field_extraction (s : String) :
    getConnectionName s
      = (afterFirst '=' ((splitChar '/' s.data).getD 0 [])).map
          (fun r => String.mk (r.takeWhile (fun c => !(c == '='))))
    ∧ getNodeName s
      = (afterFirst '=' ((splitChar '/' s.data).getD
            ((splitChar '/' s.data).length - 1) [])).map
          (fun r => String.mk (r.takeWhile (fun c => !(c == '=')))) := by
  constructor
  · simp only [getConnectionName]
    rw [splitChar_get_one]
    cases afterFirst '=' ((splitChar '/' s.data).getD 0 []) <;> simp
  · simp only [getNodeName]
    rw [splitChar_get_one]
    cases afterFirst '=' ((splitChar '/' s.data).getD
        ((splitChar '/' s.data).length - 1) []) <;> simp

/-- C10: `getPreviewSql` takes the empty-output branch whenever the first
source path is absent or the empty string, not only when `sourcePaths`
itself is empty. -/
theorem claim10_empty_first_path (vd : ViewDefinition)
    (h : vd.sourcePaths.get? 0 = none ∨ vd.sourcePaths.get? 0 = some "") :
    getPreviewSql vd = some "" := by
  rcases h with h | h
  · simp only [getPreviewSql]
    rw [h]
  · simp only [getPreviewSql]
    rw [h]
    simp

/-- Witness for C10 at `sourcePaths = [""]`. -/
theorem claim10_empty_first_path_witness :
    getPreviewSql (ViewDefinition.mk [] true "" [] [""] "v") = some "" :=
  claim10_empty_first_path (ViewDefinition.mk [] true "" [] [""] "v") (Or.inr rfl)

/-- C4: `getPreviewSql` returns `""` on empty `sourcePaths`; when the first
source path yields a connection name and a node name it returns exactly
`"SELECT * FROM " ++ lowercase connection ++ "schemamodel" ++ "." ++ node
++ ";"`; only the first source path matters; and on the example path the
result is `"SELECT * FROM pgconnschemamodel.account;"`. -/
theorem claim4_preview_sql :
    (∀ vd : ViewDefinition, vd.sourcePaths = [] → getPreviewSql vd = some "")
    ∧ (∀ (vd : ViewDefinition) (p c n : String),
        vd.sourcePaths.get? 0 = some p →
        getConnectionName p = some c →
        getNodeName p = some n →
        getPreviewSql vd
          = some ("SELECT * FROM " ++ jsToLowerCase c ++ "schemamodel" ++ "." ++ n ++ ";"))
    ∧ (∀ vd1 vd2 : ViewDefinition,
        vd1.sourcePaths.get? 0 = vd2.sourcePaths.get? 0 →
        getPreviewSql vd1 = getPreviewSql vd2)
    ∧ getPreviewSql
        (ViewDefinition.mk [] true "" [] ["connection=pgConn/schema=public/table=account"] "v")
        = some "SELECT * FROM pgconnschemamodel.account;" := by
  refine ⟨?_, ?_, ?_, by decide⟩
  · intro vd h
    simp [getPreviewSql, h]
  · intro vd p c n h0 hc hn
    have hempty : getConnectionName "" = none := by decide
    have hp : p ≠ "" := by
      intro he
      rw [he, hempty] at hc
      exact Option.noConfusion hc
    simp only [getPreviewSql, h0, if_pos hp, ne_eq]
    simp [getPreviewTableName, hc, hn, jsStringOf, SCHEMA_MODEL_SUFFIX, String.append_assoc]
  · intro vd1 vd2 h
    simp only [getPreviewSql, h]

/-- Witness for C4: part 1 at an empty `sourcePaths`, part 2 at the example
path (with a second, ignored path present), part 3 at two definitions
sharing a first path. -/
theorem claim4_preview_sql_witness :
    getPreviewSql (ViewDefinition.mk [] true "" [] [] "v") = some ""
    ∧ getPreviewSql
        (ViewDefinition.mk [] true "" []
          ["connection=pgConn/schema=public/table=account", "connection=zz/table=ignored"] "v")
        = some ("SELECT * FROM " ++ jsToLowerCase "pgConn" ++ "schemamodel" ++ "." ++ "account" ++ ";")
    ∧ getPreviewSql
        (ViewDefinition.mk [] true "" []
          ["connection=pgConn/schema=public/table=account", "connection=zz/table=ignored"] "v")
      = getPreviewSql
        (ViewDefinition.mk [] true "x" []
          ["connection=pgConn/schema=public/table=account"] "w") := by
  refine ⟨claim4_preview_sql.1 _ rfl, ?_, ?_⟩
  · exact claim4_preview_sql.2.1 _ "connection=pgConn/schema=public/table=account"
      "pgConn" "account" rfl (by decide) (by decide)
  · exact claim4_preview_sql.2.2.1 _ _ rfl

theorem generateDvConnections_eq_map (conns : List Connection)
    (sts : List VirtualizationSourceStatus) (sel : String) :
    generateDvConnections conns sts sel = conns.map (dvAnnotateOne sts sel) := by
  unfold generateDvConnections
  rw [foldl_append_singleton]
  simp

theorem dvConnStatus_eq_active_iff (sts : List VirtualizationSourceStatus) (n : String) :
    dvConnStatus sts n = "ACTIVE" ↔
      ∃ st, sts.find? (fun v => v.sourceName == n) = some st
        ∧ st.vdbState = "ACTIVE" ∧ st.schemaState = "ACTIVE" := by
  rcases hfind : sts.find? (fun v => v.sourceName == n) with _ | st
  · simp [dvConnStatus, hfind, DvConnectionStatus.INACTIVE]
  · by_cases h1 : st.vdbState = "ACTIVE"
    · by_cases h2 : st.schemaState = "ACTIVE"
      · simp [dvConnStatus, hfind, h1, h2, DvConnectionStatus.ACTIVE]
      · simp [dvConnStatus, hfind, h1, h2, DvConnectionStatus.INACTIVE]
    · simp [dvConnStatus, hfind, h1, DvConnectionStatus.INACTIVE]

theorem dvConnStatus_active_or_inactive (sts : List VirtualizationSourceStatus)
    (n : String) :
    dvConnStatus sts n = "ACTIVE" ∨ dvConnStatus sts n = "INACTIVE" := by
  rcases hfind : sts.find? (fun v => v.sourceName == n) with _ | st
  · simp [dvConnStatus, hfind, DvConnectionStatus.INACTIVE]
  · simp only [dvConnStatus, hfind]
    split <;> simp [DvConnectionStatus.ACTIVE, DvConnectionStatus.INACTIVE]

theorem dvSelectionState_eq_selected_iff (n sel : String) :
    dvSelectionState n sel = "SELECTED" ↔ n = sel := by
  by_cases h : n = sel <;>
    simp [dvSelectionState, h, DvConnectionSelection.SELECTED,
      DvConnectionSelection.NOTSELECTED]

theorem dvSelectionState_selected_or_not (n sel : String) :
    dvSelectionState n sel = "SELECTED" ∨ dvSelectionState n sel = "NOTSELECTED" := by
  by_cases h : n = sel <;>
    simp [dvSelectionState, h, DvConnectionSelection.SELECTED,
      DvConnectionSelection.NOTSELECTED]

/-- C6: `generateDvConnections` returns one annotated connection per input,
in order: the same connection with its `options` overwritten so that
`dvStatus = "ACTIVE"` iff the first status record found for the
connection's name has both `vdbState` and `schemaState` equal to
`"ACTIVE"` (otherwise `"INACTIVE"`), and `dvSelected = "SELECTED"` iff the
connection's name equals the selected name (otherwise `"NOTSELECTED"`). -/
theorem claim6_dv_connections (conns : List Connection)
    (virtualizationsSourceStatuses : List VirtualizationSourceStatus)
    (selectedConn : String) :
    (generateDvConnections conns virtualizationsSourceStatuses selectedConn).length
        = conns.length
    ∧ ∀ (i : Nat) (c c' : Connection), conns[i]? = some c →
        (generateDvConnections conns virtualizationsSourceStatuses selectedConn)[i]?
          = some c' →
        c'.name = c.name
        ∧ ∃ opts, c'.options = some opts
            ∧ (opts.dvStatus = "ACTIVE" ↔
                ∃ st, virtualizationsSourceStatuses.find?
                    (fun v => v.sourceName == c.name) = some st
                  ∧ st.vdbState = "ACTIVE" ∧ st.schemaState = "ACTIVE")
            ∧ (opts.dvStatus = "ACTIVE" ∨ opts.dvStatus = "INACTIVE")
            ∧ (opts.dvSelected = "SELECTED" ↔ c.name = selectedConn)
            ∧ (opts.dvSelected = "SELECTED" ∨ opts.dvSelected = "NOTSELECTED") := by
  constructor
  · rw [generateDvConnections_eq_map]
    simp
  · intro i c c' hc hc'
    rw [generateDvConnections_eq_map, List.getElem?_map, hc, Option.map_some'] at hc'
    have hcc : dvAnnotateOne virtualizationsSourceStatuses selectedConn c = c' :=
      Option.some_inj.mp hc'
    rw [← hcc]
    refine ⟨rfl, ConnectionOptions.mk
      (dvConnStatus virtualizationsSourceStatuses c.name)
      (dvSelectionState c.name selectedConn), rfl, ?_, ?_, ?_, ?_⟩
    · exact dvConnStatus_eq_active_iff virtualizationsSourceStatuses c.name
    · exact dvConnStatus_active_or_inactive virtualizationsSourceStatuses c.name
    · exact dvSelectionState_eq_selected_iff c.name selectedConn
    · exact dvSelectionState_selected_or_not c.name selectedConn

/-- Witness for C6 at the spec's round-trip example: connection `"c1"` with
a fully-active matching status and `selectedConn = "c1"`. -/
theorem claim6_dv_connections_witness :
    (generateDvConnections [Connection.mk "c1" none]
        [VirtualizationSourceStatus.mk "c1" "ACTIVE" "ACTIVE"] "c1").length = 1
    ∧ ((Connection.mk "c1" (some (ConnectionOptions.mk "ACTIVE" "SELECTED"))).name
        = (Connection.mk "c1" none).name
      ∧ ∃ opts,
          (Connection.mk "c1" (some (ConnectionOptions.mk "ACTIVE" "SELECTED"))).options
            = some opts
          ∧ (opts.dvStatus = "ACTIVE" ↔
              ∃ st, [VirtualizationSourceStatus.mk "c1" "ACTIVE" "ACTIVE"].find?
                  (fun v => v.sourceName == (Connection.mk "c1" none).name) = some st
                ∧ st.vdbState = "ACTIVE" ∧ st.schemaState = "ACTIVE")
          ∧ (opts.dvStatus = "ACTIVE" ∨ opts.dvStatus = "INACTIVE")
          ∧ (opts.dvSelected = "SELECTED" ↔ (Connection.mk "c1" none).name = "c1")
          ∧ (opts.dvSelected = "SELECTED" ∨ opts.dvSelected = "NOTSELECTED")) := by
  have h := claim6_dv_connections [Connection.mk "c1" none]
    [VirtualizationSourceStatus.mk "c1" "ACTIVE" "ACTIVE"] "c1"
  exact ⟨h.1, h.2 0 (Connection.mk "c1" none)
    (Connection.mk "c1" (some (ConnectionOptions.mk "ACTIVE" "SELECTED"))) rfl (by decide)⟩

/-- C8: `getPublishingDetails` copies the published state through, always
reports a 4-step total, maps `CONFIGURING`/`BUILDING`/`DEPLOYING`/`RUNNING`
to steps 1–4 with their fixed step texts, maps every other state to step 0
with blank text, and passes a present (non-empty) publish log URL through
unchanged. -/
theorem claim8_publishing_details (v : RestDataService) :
    (getPublishingDetails v).state = v.publishedState
    ∧ (getPublishingDetails v).stepTotal = 4
    ∧ (v.publishedState = "CONFIGURING" →
        (getPublishingDetails v).stepNumber = 1
          ∧ (getPublishingDetails v).stepText = "Configuring")
    ∧ (v.publishedState = "BUILDING" →
        (getPublishingDetails v).stepNumber = 2
          ∧ (getPublishingDetails v).stepText = "Building")
    ∧ (v.publishedState = "DEPLOYING" →
        (getPublishingDetails v).stepNumber = 3
          ∧ (getPublishingDetails v).stepText = "Deploying")
    ∧ (v.publishedState = "RUNNING" →
        (getPublishingDetails v).stepNumber = 4
          ∧ (getPublishingDetails v).stepText = "Published")
    ∧ (v.publishedState ≠ "CONFIGURING" → v.publishedState ≠ "BUILDING" →
        v.publishedState ≠ "DEPLOYING" → v.publishedState ≠ "RUNNING" →
        (getPublishingDetails v).stepNumber = 0
          ∧ (getPublishingDetails v).stepText = "")
    ∧ (∀ u, v.publishLogUrl = some u → u ≠ "" →
        (getPublishingDetails v).logUrl = some u) := by
  obtain ⟨ps, lu⟩ := v
  rcases lu with _ | u
  · simp only [getPublishingDetails]
    split <;> simp_all
  · by_cases hu : u = ""
    · subst hu
      simp only [getPublishingDetails]
      split <;> simp_all
      constructor <;> (split <;> rfl)
    · simp only [getPublishingDetails]
      split <;> simp_all
      constructor <;> (split <;> rfl)

/-- Witness for C8: one input per published-state branch, with a non-empty
log URL on the `RUNNING` input. -/
theorem claim8_publishing_details_witness :
    ((getPublishingDetails (RestDataService.mk "CONFIGURING" none)).stepNumber = 1
      ∧ (getPublishingDetails (RestDataService.mk "CONFIGURING" none)).stepText = "Configuring")
    ∧ ((getPublishingDetails (RestDataService.mk "BUILDING" none)).stepNumber = 2
      ∧ (getPublishingDetails (RestDataService.mk "BUILDING" none)).stepText = "Building")
    ∧ ((getPublishingDetails (RestDataService.mk "DEPLOYING" none)).stepNumber = 3
      ∧ (getPublishingDetails (RestDataService.mk "DEPLOYING" none)).stepText = "Deploying")
    ∧ ((getPublishingDetails (RestDataService.mk "RUNNING" (some "http:log"))).stepNumber = 4
      ∧ (getPublishingDetails (RestDataService.mk "RUNNING" (some "http:log"))).stepText
          = "Published")
    ∧ ((getPublishingDetails (RestDataService.mk "FAILED" none)).stepNumber = 0
      ∧ (getPublishingDetails (RestDataService.mk "FAILED" none)).stepText = "")
    ∧ (getPublishingDetails (RestDataService.mk "RUNNING" (some "http:log"))).logUrl
        = some "http:log" := by
  refine ⟨?_, ?_, ?_, ?_, ?_, ?_⟩
  · exact (claim8_publishing_details (RestDataService.mk "CONFIGURING" none)).2.2.1 rfl
  · exact (claim8_publishing_details (RestDataService.mk "BUILDING" none)).2.2.2.1 rfl
  · exact (claim8_publishing_details (RestDataService.mk "DEPLOYING" none)).2.2.2.2.1 rfl
  · exact (claim8_publishing_details (RestDataService.mk "RUNNING" (some "http:log"))).2.2.2.2.2.1
      rfl
  · exact (claim8_publishing_details (RestDataService.mk "FAILED" none)).2.2.2.2.2.2.1
      (by decide) (by decide) (by decide) (by decide)
  · exact (claim8_publishing_details (RestDataService.mk "RUNNING" (some "http:log"))).2.2.2.2.2.2.2
      "http:log" rfl (by decide)

end VirtualizationUtils
